import Mathlib

/-! Verification development for the Device Radar discovery and inventory engine.
The definitions below are a shallow embedding of the scanning, classification,
subnet-validation and publication code of the repository
(`device scan/dev.py` and `device scan/utils/network_utils.py`).
Strings are modelled by Lean `String`; where a Python operation walks characters
we work on `String.data`, the underlying character list. -/

namespace DeviceRadar

/-- Coarse operating-system guess, the closed enumeration used by the OS-guess
chain in `dev.py` lines 161-164 and by the `OS_COLORS` table. -/
inductive OSGuess where
  | Windows : OSGuess
  | Apple : OSGuess
  | Android : OSGuess
  | Unknown : OSGuess
  deriving DecidableEq

/-- One discovered host, the record built by `scan_network` in `dev.py` line
165: a dict holding ip, mac, host and os fields.  The random radar coordinates
x and y later merged into the dict (lines 172-176) are presentation-only
floats and are not part of the inventory data model. -/
structure Device where
  ip : String
  mac : String
  host : String
  os : OSGuess
  deriving DecidableEq

/-- Character-level embedding of the MAC normalization of `dev.py` line 160,
upper followed by colon removal: uppercase every character, then delete every
colon. -/
def normalizeMac (mac : String) : List Char :=
  (mac.data.map Char.toUpper).filter (fun c => c ≠ ':')

/-- The vendor key of `dev.py` line 160: the first six characters of the
normalized MAC. -/
def macVendor (mac : String) : List Char :=
  (normalizeMac mac).take 6

/-- Embedding of the OS-guess chain of `dev.py` lines 161-164:
`startswith` tests on the vendor key, defaulting to Unknown. -/
def classify (mac : String) : OSGuess :=
  let vendor := macVendor mac
  if ("5C1F".data).isPrefixOf vendor then OSGuess.Apple
  else if ("FCFB".data).isPrefixOf vendor then OSGuess.Windows
  else if ("A1B2".data).isPrefixOf vendor then OSGuess.Android
  else OSGuess.Unknown

/-- The static MAC-prefix table as the spec describes the classifier: a fixed
enumeration of known vendor prefixes with their OS labels. -/
def ouiTable : List (List Char × OSGuess) :=
  [("5C1F".data, OSGuess.Apple), ("FCFB".data, OSGuess.Windows),
   ("A1B2".data, OSGuess.Android)]

/-- Spec-style classification: look the vendor key up against the static table
of known prefixes; every unmatched key maps to Unknown. -/
def lookupVendor (v : List Char) : OSGuess :=
  match ouiTable.find? (fun e => e.1.isPrefixOf v) with
  | some e => e.2
  | none => OSGuess.Unknown

/-- Embedding of the hostname resolution of `dev.py` lines 156-159:
`socket.gethostbyaddr(ip)[0]` with a bare except falling back to the ip string.
The environment is abstracted as `dns`, mapping an ip to the reverse-DNS name
when the lookup succeeds and to `none` when it raises. -/
def resolveHost (dns : String → Option String) (ip : String) : String :=
  match dns ip with
  | some h => h
  | none => ip

/-- One Device record as assembled by the loop body of `dev.py` lines 153-165
from a raw probe reply `(r.psrc, r.hwsrc)`. -/
def buildDevice (dns : String → Option String) (r : String × String) : Device :=
  ⟨r.1, r.2, resolveHost dns r.1, classify r.2⟩

/-- The `found` list of `dev.py` lines 152-165: one record appended per
arping reply, in reply order, with no deduplication. -/
def assembleDevices (dns : String → Option String)
    (results : List (String × String)) : List Device :=
  results.map (buildDevice dns)

/-- Embedding of the probe phase of `scan_network`, `dev.py` lines 145-165: the
`arping` call either returns the reply list or raises; a raise is caught and
`ans` becomes the empty list, after which the reply loop assembles `found`. -/
def scanCycle (probe : Except String (List (String × String)))
    (dns : String → Option String) : List Device :=
  let ans := match probe with
    | Except.ok l => l
    | Except.error _ => []
  assembleDevices dns ans

/-- Final state of the device table after the publication phase of
`scan_network`, `dev.py` lines 168-177: `self.devices.clear()` followed by one
append per found record leaves the table holding exactly `found`; the previous
contents are discarded wholesale. -/
def publishSnapshot (_previous found : List Device) : List Device :=
  found

/-- Canonical colon-separated uppercase form of a hardware address as the spec
words it: the same characters with every letter uppercased. -/
def macCanonical (s : String) : String :=
  ⟨s.data.map Char.toUpper⟩

/-- C2: for the probe-result MACs of the spec, classification returns Apple,
Windows and Unknown respectively; and in general the classifier is exactly the
lookup of the first six characters of the colon-stripped uppercased MAC against
the static prefix table, with every unmatched key mapping to Unknown. -/
theorem classify_spec :
    classify "5C:1F:00:11:22:33" = OSGuess.Apple ∧
    classify "FC:FB:AA:BB:CC:DD" = OSGuess.Windows ∧
    classify "00:00:00:00:00:00" = OSGuess.Unknown ∧
    ∀ mac : String, classify mac = lookupVendor (macVendor mac) := by
  refine ⟨by decide, by decide, by decide, fun mac => ?_⟩
  cases h1 : ("5C1F".data).isPrefixOf (macVendor mac) <;>
    cases h2 : ("FCFB".data).isPrefixOf (macVendor mac) <;>
      cases h3 : ("A1B2".data).isPrefixOf (macVendor mac) <;>
        simp [classify, lookupVendor, ouiTable, List.find?, h1, h2, h3]

/-- C3: a failed or empty ARP probe still completes the cycle and publishes an
empty device table; no error propagates (the embedding is total) and the
previous devices are not retained by the publication step. -/
theorem scan_failure_publishes_empty (dns : String → Option String) (e : String)
    (old : List Device) :
    scanCycle (Except.error e) dns = [] ∧
    scanCycle (Except.ok []) dns = [] ∧
    publishSnapshot old (scanCycle (Except.error e) dns) = [] ∧
    publishSnapshot old (scanCycle (Except.ok []) dns) = [] :=
  ⟨rfl, rfl, rfl, rfl⟩

/-- C5 counterexample: a lowercase hardware address from the probe is stored
verbatim in the `mac` field, which is therefore not in canonical uppercase
form. -/
theorem mac_not_canonical_counterexample :
    (assembleDevices (fun _ => none) [("10.0.0.5", "5c:1f:00:11:22:33")]).map
        (fun d => d.mac) = ["5c:1f:00:11:22:33"] ∧
    macCanonical "5c:1f:00:11:22:33" ≠ "5c:1f:00:11:22:33" := by
  refine ⟨rfl, by decide⟩

/-- C5 amended: the `mac` field of every assembled Device stores the raw
hardware address exactly as the probe returned it, with no normalization. -/
theorem mac_stored_verbatim (dns : String → Option String)
    (results : List (String × String)) :
    (assembleDevices dns results).map (fun d => d.mac)
      = results.map (fun r => r.2) := by
  induction results with
  | nil => rfl
  | cons r rs ih =>
    simp only [assembleDevices, List.map_cons] at ih ⊢
    rw [ih]
    rfl

/-- C6 counterexample: two probe replies with the same IP both survive table
assembly, so the snapshot holds two Devices for that IP, not exactly one. -/
theorem duplicate_ip_counterexample :
    (assembleDevices (fun _ => none)
        [("10.0.0.5", "aa:aa:aa:aa:aa:01"), ("10.0.0.5", "aa:aa:aa:aa:aa:02")]).map
        (fun d => d.ip) = ["10.0.0.5", "10.0.0.5"] ∧
    (assembleDevices (fun _ => none)
        [("10.0.0.5", "aa:aa:aa:aa:aa:01"), ("10.0.0.5", "aa:aa:aa:aa:aa:02")]).length
      = 2 ∧ (2 : Nat) ≠ 1 := by
  refine ⟨rfl, rfl, by decide⟩

/-- C6 amended: table assembly keeps one Device per probe reply, in reply
order, with no deduplication; duplicate IPs are retained as separate records. -/
theorem one_device_per_reply (dns : String → Option String)
    (results : List (String × String)) :
    (assembleDevices dns results).map (fun d => d.ip)
      = results.map (fun r => r.1) ∧
    (assembleDevices dns results).length = results.length := by
  constructor
  · induction results with
    | nil => rfl
    | cons r rs ih =>
      simp only [assembleDevices, List.map_cons] at ih ⊢
      rw [ih]
      rfl
  · simp [assembleDevices]

/-- Boolean prefix test unfolded to a take-and-compare: `p.isPrefixOf l` holds
exactly when the first `p.length` elements of `l` are `p`. -/
lemma isPrefixOf_eq_true_iff : ∀ (p l : List Char), p.isPrefixOf l = true ↔ l.take p.length = p
  | [], l => by simp [List.isPrefixOf]
  | a :: p, [] => by simp [List.isPrefixOf]
  | a :: p, b :: l => by
    simp only [List.isPrefixOf, List.length_cons, List.take_succ_cons,
      Bool.and_eq_true, beq_iff_eq, isPrefixOf_eq_true_iff p l, List.cons.injEq]
    constructor
    · rintro ⟨h1, h2⟩; exact ⟨h1.symm, h2⟩
    · rintro ⟨h1, h2⟩; exact ⟨h1.symm, h2⟩

/-- A prefix test with a four-character pattern against the first six characters
of a list only inspects the first four characters. -/
lemma isPrefixOf_take6_congr (p : List Char) (hp : p.length ≤ 4) {l₁ l₂ : List Char}
    (h : l₁.take 4 = l₂.take 4) :
    p.isPrefixOf (l₁.take 6) = p.isPrefixOf (l₂.take 6) := by
  have hm6 : min p.length 6 = p.length := by omega
  have hm4 : min p.length 4 = p.length := by omega
  have key : (l₁.take 6).take p.length = (l₂.take 6).take p.length := by
    calc (l₁.take 6).take p.length = l₁.take p.length := by rw [List.take_take, hm6]
      _ = (l₁.take 4).take p.length := by rw [List.take_take, hm4]
      _ = (l₂.take 4).take p.length := by rw [h]
      _ = l₂.take p.length := by rw [List.take_take, hm4]
      _ = (l₂.take 6).take p.length := by rw [List.take_take, hm6]
  cases ha : p.isPrefixOf (l₁.take 6) <;> cases hb : p.isPrefixOf (l₂.take 6)
  · rfl
  · exfalso
    have h2 := (isPrefixOf_eq_true_iff p (l₂.take 6)).mp hb
    have h1 : p.isPrefixOf (l₁.take 6) = true :=
      (isPrefixOf_eq_true_iff p (l₁.take 6)).mpr (by rw [key, h2])
    rw [ha] at h1
    exact Bool.false_ne_true h1
  · exfalso
    have h1 := (isPrefixOf_eq_true_iff p (l₁.take 6)).mp ha
    have h2 : p.isPrefixOf (l₂.take 6) = true :=
      (isPrefixOf_eq_true_iff p (l₂.take 6)).mpr (by rw [← key, h1])
    rw [hb] at h2
    exact Bool.false_ne_true h2
  · rfl

/-- C9: classification is determined by the first four characters of the
colon-stripped uppercased MAC; two MACs whose normalized forms agree on those
four characters classify identically, so later characters never influence the
result. -/
theorem classify_first4_determined (m1 m2 : String)
    (h : (normalizeMac m1).take 4 = (normalizeMac m2).take 4) :
    classify m1 = classify m2 := by
  have e1 := isPrefixOf_take6_congr "5C1F".data (by decide) h
  have e2 := isPrefixOf_take6_congr "FCFB".data (by decide) h
  have e3 := isPrefixOf_take6_congr "A1B2".data (by decide) h
  simp only [classify, macVendor, e1, e2, e3]

/-- C9 witness: two concrete MACs agreeing on the first four normalized
characters receive the same classification. -/
theorem classify_first4_witness :
    (normalizeMac "5C:1F:00:11:22:33").take 4 = (normalizeMac "5c1f99aa").take 4 ∧
    classify "5C:1F:00:11:22:33" = classify "5c1f99aa" :=
  ⟨by decide, classify_first4_determined "5C:1F:00:11:22:33" "5c1f99aa" (by decide)⟩

/-- Sample device records used as concrete scan contents. -/
def devA : Device := ⟨"192.168.1.10", "aa:bb:cc:dd:ee:01", "alpha", OSGuess.Unknown⟩

/-- Second sample device record. -/
def devB : Device := ⟨"192.168.1.11", "aa:bb:cc:dd:ee:02", "beta", OSGuess.Unknown⟩

/-- Momentary values taken by the shared `self.devices` list while
`scan_network` publishes a cycle (`dev.py` lines 167-177): the list is mutated
in place by `clear()` followed by one `append` per found record, each list
operation being individually atomic.  A concurrent reader such as `draw_radar`
(lines 197-210) samples the list at one of these values: the old contents
before the clear, or `found.take k` after `k` appends. -/
def updateStates (old found : List Device) : List (List Device) :=
  old :: (List.range (found.length + 1)).map (fun k => found.take k)

/-- C1 counterexample: with a previous snapshot of zero devices and a new scan
finding two, a reader can observe the one-element intermediate list, which is
neither the previous complete snapshot nor the new complete one. -/
theorem reader_partial_view_counterexample :
    [devA] ∈ updateStates [] [devA, devB] ∧
    [devA] ≠ ([] : List Device) ∧ [devA] ≠ [devA, devB] :=
  ⟨by decide, by decide, by decide⟩

/-- C1 amended: every value a reader can observe during publication is either
the previous complete snapshot or a prefix (possibly partial, possibly empty)
of the new device sequence; partially populated snapshots are observable
because the table is rebuilt in place rather than swapped atomically. -/
theorem reader_view_amended (old found s : List Device)
    (h : s ∈ updateStates old found) :
    s = old ∨ ∃ k, k ≤ found.length ∧ s = found.take k := by
  rcases List.mem_cons.mp h with h0 | hm
  · exact Or.inl h0
  · rcases List.mem_map.mp hm with ⟨k, hk, rfl⟩
    exact Or.inr ⟨k, Nat.lt_succ_iff.mp (List.mem_range.mp hk), rfl⟩

/-- C1 amended witness: the intermediate one-element view is indeed a prefix of
the new snapshot. -/
theorem reader_view_amended_witness :
    ([devA] ∈ updateStates [] [devA, devB]) ∧
    ([devA] = ([] : List Device) ∨
      ∃ k, k ≤ [devA, devB].length ∧ [devA] = [devA, devB].take k) :=
  ⟨by decide, reader_view_amended [] [devA, devB] [devA] (by decide)⟩

/-- Micro-operations performed by the publication phase of `scan_network`
(`dev.py` lines 167-179) as executed by the background thread of `scan_loop`:
`clear` is `self.devices.clear()` (a pure list operation), `widget` is a
Tkinter widget call (`self.troll_btn.state` at line 170, `self.info_label.config`
at line 179) which raises once `on_close` has destroyed the window, and
`append` extends the device list by one record (line 177). -/
inductive MicroStep where
  | clear : MicroStep
  | widget : MicroStep
  | append : Device → MicroStep

/-- Outcome of the in-flight scan: the publication phase either ran to
completion (the thread then sleeps and exits its loop) or died from an
uncaught exception, leaving the device table at the recorded value. -/
inductive ScanOutcome where
  | published : List Device → ScanOutcome
  | aborted : List Device → ScanOutcome
  deriving DecidableEq

/-- Step sequence of the publication phase for a scan that found `found`:
clear, the `troll_btn` widget call, one append per record, then the
`info_label` widget call. -/
def scanSteps (found : List Device) : List MicroStep :=
  MicroStep.clear :: MicroStep.widget ::
    (found.map MicroStep.append ++ [MicroStep.widget])

/-- Execute the remaining micro-steps at step index `i` over the current device
list; `closed i` tells whether `on_close` has already destroyed the window when
step `i` runs, in which case a widget call raises and the scan thread dies
(there is no handler around the loop body of `scan_loop`). -/
def execSteps (closed : Nat → Bool) : List MicroStep → Nat → List Device → ScanOutcome
  | [], _, devs => ScanOutcome.published devs
  | MicroStep.clear :: rest, i, _ => execSteps closed rest (i + 1) []
  | MicroStep.widget :: rest, i, devs =>
    if closed i then ScanOutcome.aborted devs else execSteps closed rest (i + 1) devs
  | MicroStep.append d :: rest, i, devs => execSteps closed rest (i + 1) (devs ++ [d])

/-- Close schedule: `some k` means `on_close` runs just before micro-step `k`
of the in-flight publication phase; `none` means the window outlives the scan
(`self.running` alone never interrupts it, being polled only between cycles). -/
def closedFrom (closeAt : Option Nat) (i : Nat) : Bool :=
  match closeAt with
  | some k => decide (k ≤ i)
  | none => false

/-- Run the publication phase of one in-flight scan that found `found`, with the
device table previously holding `old`, under the given close schedule. -/
def runPublish (old found : List Device) (closeAt : Option Nat) : ScanOutcome :=
  execSteps (closedFrom closeAt) (scanSteps found) 0 old

/-- Executing the append chain followed by the final widget call publishes the
accumulated list unless the window is closed by the time that call runs. -/
lemma execSteps_append_chain (closed : Nat → Bool) :
    ∀ (ds : List Device) (i : Nat) (acc : List Device),
      execSteps closed (ds.map MicroStep.append ++ [MicroStep.widget]) i acc =
        if closed (i + ds.length) then ScanOutcome.aborted (acc ++ ds)
        else ScanOutcome.published (acc ++ ds)
  | [], i, acc => by simp [execSteps]
  | d :: ds, i, acc => by
    have harith : i + 1 + ds.length = i + (ds.length + 1) := by omega
    simp only [List.map_cons, List.cons_append, execSteps, List.append_eq,
      execSteps_append_chain closed ds (i + 1) (acc ++ [d]), harith,
      List.append_assoc, List.singleton_append, List.length_cons, List.nil_append]

/-- Characterization of the publication phase under any close schedule: a close
reaching the first widget call aborts with the table cleared, a close reaching
only the final widget call aborts after the table already holds the new
records, and otherwise the scan publishes the new records. -/
lemma runPublish_eq (old found : List Device) (closeAt : Option Nat) :
    runPublish old found closeAt =
      if closedFrom closeAt 1 then ScanOutcome.aborted []
      else if closedFrom closeAt (found.length + 2) then ScanOutcome.aborted found
      else ScanOutcome.published found := by
  unfold runPublish scanSteps
  simp only [execSteps, execSteps_append_chain (closedFrom closeAt) found 2 []]
  have harith : 2 + found.length = found.length + 2 := by omega
  simp only [harith, List.nil_append]

/-- C8 counterexample: `on_close` arriving between the table clear and the
first widget call of an in-flight scan makes that widget call raise, so the
scan thread dies without publishing: the table is left empty, which is neither
the old snapshot nor the new one, and the new snapshot is never published. -/
theorem stop_midscan_counterexample :
    runPublish [devA] [devB] (some 1) = ScanOutcome.aborted [] ∧
    ScanOutcome.aborted ([] : List Device) ≠ ScanOutcome.published [devB] ∧
    ([] : List Device) ≠ [devA] :=
  ⟨by decide, by decide, by decide⟩

/-- C8 amended: the `running` flag alone never interrupts an in-flight scan
(with no close during the scan the new snapshot is always published), and a
close arriving only after every widget call still lets the scan publish; but a
stop that destroys the window before the scan reaches its first widget call
aborts the scan with nothing published and the table left empty, so shutdown is
not a guaranteed graceful drain. -/
theorem stop_midscan_amended (old found : List Device) (k : Nat) :
    runPublish old found none = ScanOutcome.published found ∧
    (found.length + 3 ≤ k →
      runPublish old found (some k) = ScanOutcome.published found) ∧
    (k ≤ 1 → runPublish old found (some k) = ScanOutcome.aborted []) := by
  refine ⟨?_, fun hk => ?_, fun hk => ?_⟩
  · simp [runPublish_eq, closedFrom]
  · have h1 : ¬ (k ≤ 1) := by omega
    have h2 : ¬ (k ≤ found.length + 2) := by omega
    simp [runPublish_eq, closedFrom, h1, h2]
  · simp [runPublish_eq, closedFrom, hk]

/-- C8 amended witness: concrete runs of the three schedules. -/
theorem stop_midscan_amended_witness :
    runPublish [devA] [devB] none = ScanOutcome.published [devB] ∧
    runPublish [devA] [devB] (some 5) = ScanOutcome.published [devB] ∧
    runPublish [devA] [devB] (some 0) = ScanOutcome.aborted [] :=
  ⟨(stop_midscan_amended [devA] [devB] 0).1,
   (stop_midscan_amended [devA] [devB] 5).2.1 (by decide),
   (stop_midscan_amended [devA] [devB] 0).2.2 (by decide)⟩

/-- Split a character list at every occurrence of `c`, keeping empty segments,
as Python `str.split(sep)` does for a one-character separator. -/
def splitOnChar (c : Char) : List Char → List (List Char)
  | [] => [[]]
  | x :: xs =>
    let rest := splitOnChar c xs
    if x = c then [] :: rest
    else (x :: rest.headD []) :: rest.tail

/-- Parse one dotted-quad octet the way `ipaddress._parse_octet` does: only
decimal digits, at most three of them, no leading zero (except "0" itself), and
a value of at most 255. -/
def parseOctet (l : List Char) : Option Nat :=
  if l ≠ [] ∧ l.all Char.isDigit = true ∧ l.length ≤ 3 ∧
      (l.length = 1 ∨ l.headD ' ' ≠ '0') then
    let v := l.foldl (fun a c => 10 * a + (c.toNat - 48)) 0
    if v ≤ 255 then some v else none
  else none

/-- Parse a dotted-quad IPv4 address to its 32-bit value, as
`ipaddress.IPv4Address` does for strings: exactly four octet fields. -/
def parseIPv4 (l : List Char) : Option Nat :=
  match splitOnChar '.' l with
  | [a, b, c, d] =>
    (parseOctet a).bind fun va =>
      (parseOctet b).bind fun vb =>
        (parseOctet c).bind fun vc =>
          (parseOctet d).map fun vd =>
            ((va * 256 + vb) * 256 + vc) * 256 + vd
  | _ => none

/-- Recover a prefix length from a 32-bit netmask value (contiguous leading
ones), if it is one. -/
def prefixLenOfNetmask (v : Nat) : Option Nat :=
  (List.range 33).find? (fun p => v == 2 ^ 32 - 2 ^ (32 - p))

/-- Recover a prefix length from a 32-bit hostmask value (contiguous trailing
ones), if it is one. -/
def prefixLenOfHostmask (v : Nat) : Option Nat :=
  (List.range 33).find? (fun p => v == 2 ^ (32 - p) - 1)

/-- Parse the part after the slash the way `ipaddress` does: a plain decimal
prefix length of at most 32, or else a dotted-quad netmask or hostmask. -/
def parsePrefixLen (l : List Char) : Option Nat :=
  if l ≠ [] ∧ l.all Char.isDigit = true then
    let v := l.foldl (fun a c => 10 * a + (c.toNat - 48)) 0
    if v ≤ 32 then some v else none
  else
    match parseIPv4 l with
    | some v =>
      match prefixLenOfNetmask v with
      | some p_ => some p_
      | none => prefixLenOfHostmask v
    | none => none

/-- Embedding of `ipaddress.IPv4Network(s, strict=False)`: split on the single
permitted slash, parse address and prefix, and mask the host bits away (which
is what `strict=False` permits and performs).  Returns the network base address
(32-bit value) and the prefix length, or `none` where Python raises. -/
def parseIPv4Network (s : String) : Option (Nat × Nat) :=
  match splitOnChar '/' s.data with
  | [addr] => (parseIPv4 addr).map (fun v => (v, 32))
  | [addr, pstr] =>
    match parseIPv4 addr, parsePrefixLen pstr with
    | some v, some p_ => some (v - v % 2 ^ (32 - p_), p_)
    | _, _ => none
  | _ => none

/-- Render a 32-bit value as a dotted quad, as `str(IPv4Address)` does. -/
def renderIPv4 (v : Nat) : String :=
  toString (v / 2 ^ 24 % 256) ++ "." ++ toString (v / 2 ^ 16 % 256) ++ "." ++
    toString (v / 2 ^ 8 % 256) ++ "." ++ toString (v % 256)

/-- Render a network as `str(IPv4Network)` does: base address, slash, prefix. -/
def ipv4NetworkStr (net p_ : Nat) : String :=
  renderIPv4 net ++ "/" ++ toString p_

/-- Python `str.strip` modelled at the character level: drop whitespace from
both ends (`dev.py` line 119, `self.subnet_var.get().strip()`). -/
def stripStr (s : String) : String :=
  ⟨((s.data.dropWhile Char.isWhitespace).reverse.dropWhile Char.isWhitespace).reverse⟩

/-- Embedding of `DeviceRadarApp.update_subnet` (`dev.py` lines 118-127):
validate the stripped input with `IPv4Network(val, strict=False)`; on success
the shared configuration `DEFAULT_SUBNET` becomes the raw stripped string; on
failure an error dialog is shown and the configuration is untouched.  The
result is the error message, if any, paired with the configuration after the
call. -/
def update_subnet (input : String) (config : String) : Option String × String :=
  let val := stripStr input
  match parseIPv4Network val with
  | some _ => (none, val)
  | none => (some "Invalid subnet", config)

/-- Embedding of `get_local_subnet` (`network_utils.py` lines 4-19): the
throwaway connect either yields the local-facing address string or raises, in
which case the bare except substitutes "127.0.0.1"; either way the /24 network
derived from that address is rendered.  `connectResult` abstracts the socket
environment; the error branch models `IPv4Network` raising on a malformed
address, which the function does not catch. -/
def get_local_subnet (connectResult : Option String) : Except String String :=
  let local_ip := match connectResult with
    | some ip => ip
    | none => "127.0.0.1"
  match parseIPv4Network (local_ip ++ "/24") with
  | some q => Except.ok (ipv4NetworkStr q.1 q.2)
  | none => Except.error "AddressValueError"

example : parseIPv4Network "192.168.1.5/24" = some (3232235776, 24) := by decide
example : parseIPv4Network "not-an-ip" = none := by decide
example : parseIPv4Network "10.0.0.0/99" = none := by decide
example : parseIPv4Network "10.0.0.0/255.255.255.0" = some (167772160, 24) := by decide
example : get_local_subnet none = Except.ok "127.0.0.0/24" := rfl
example : stripStr " 10.0.0.0/8 " = "10.0.0.0/8" := by decide

/-- C4: for every input whose stripped form is not a valid CIDR, `update_subnet`
reports the error to the caller and leaves the shared subnet configuration
exactly as it was before the call. -/
theorem update_subnet_invalid_leaves_config (input config : String)
    (h : parseIPv4Network (stripStr input) = none) :
    update_subnet input config = (some "Invalid subnet", config) := by
  simp only [update_subnet, h]

/-- C4 witness: the two invalid inputs named by the spec are rejected and the
configuration survives unchanged. -/
theorem update_subnet_invalid_witness :
    update_subnet "not-an-ip" "192.168.1.0/24"
      = (some "Invalid subnet", "192.168.1.0/24") ∧
    update_subnet "10.0.0.0/99" "192.168.1.0/24"
      = (some "Invalid subnet", "192.168.1.0/24") :=
  ⟨update_subnet_invalid_leaves_config "not-an-ip" "192.168.1.0/24" (by decide),
   update_subnet_invalid_leaves_config "10.0.0.0/99" "192.168.1.0/24" (by decide)⟩

/-- C10: validation accepts a CIDR with nonzero host bits, and the accepted
configuration is the raw stripped user string, not the normalized network base
address (which would be 192.168.1.0/24). -/
theorem update_subnet_host_bits_verbatim :
    (∀ config : String,
      update_subnet "192.168.1.5/24" config = (none, "192.168.1.5/24")) ∧
    (parseIPv4Network "192.168.1.5/24").map (fun q => ipv4NetworkStr q.1 q.2)
      = some "192.168.1.0/24" ∧
    "192.168.1.5/24" ≠ "192.168.1.0/24" :=
  ⟨fun _ => rfl, rfl, by decide⟩

/-- Splitting a list with no separator occurrence before the first separator
yields that whole piece as the first segment. -/
lemma splitOnChar_append_cons (c : Char) : ∀ (l r : List Char), c ∉ l →
    splitOnChar c (l ++ c :: r) = l :: splitOnChar c r
  | [], r, _ => by simp [splitOnChar]
  | x :: xs, r, hl => by
    have hx : ¬ (x = c) := by
      intro hxc
      subst hxc
      exact hl (List.mem_cons_self x xs)
    have hxs : c ∉ xs := fun hm => hl (List.mem_cons_of_mem _ hm)
    simp only [List.cons_append, splitOnChar, List.append_eq, if_neg hx,
      splitOnChar_append_cons c xs r hxs, List.headD_cons, List.tail_cons]

/-- Every element other than the separator lands inside some segment of the
split. -/
lemma exists_part_of_mem_splitOnChar (c x : Char) (hne : x ≠ c) :
    ∀ (l : List Char), x ∈ l → ∃ part, part ∈ splitOnChar c l ∧ x ∈ part
  | [], hx => absurd hx (List.not_mem_nil x)
  | y :: ys, hx => by
    by_cases hy : y = c
    · have hx2 : x ∈ ys := by
        rcases List.mem_cons.mp hx with h | h
        · exact absurd (h.trans hy) hne
        · exact h
      rcases exists_part_of_mem_splitOnChar c x hne ys hx2 with ⟨p, hp, hxp⟩
      refine ⟨p, ?_, hxp⟩
      simp only [splitOnChar, if_pos hy]
      exact List.mem_cons_of_mem [] hp
    · rcases List.mem_cons.mp hx with rfl | hx2
      · refine ⟨x :: (splitOnChar c ys).headD [], ?_, List.mem_cons_self _ _⟩
        simp only [splitOnChar, if_neg hy]
        exact List.mem_cons_self _ _
      · rcases exists_part_of_mem_splitOnChar c x hne ys hx2 with ⟨p, hp, hxp⟩
        rcases hres : splitOnChar c ys with _ | ⟨hd, tl⟩
        · rw [hres] at hp
          exact absurd hp (List.not_mem_nil p)
        · rw [hres] at hp
          rcases List.mem_cons.mp hp with rfl | hptl
          · refine ⟨y :: p, ?_, List.mem_cons_of_mem y hxp⟩
            simp only [splitOnChar, if_neg hy, hres, List.headD_cons, List.tail_cons]
            exact List.mem_cons_self _ _
          · refine ⟨p, ?_, hxp⟩
            simp only [splitOnChar, if_neg hy, hres, List.headD_cons, List.tail_cons]
            exact List.mem_cons_of_mem _ hptl

/-- A successfully parsed octet consists of decimal digits only. -/
lemma parseOctet_digits {l : List Char} {w : Nat} (h : parseOctet l = some w) :
    l.all Char.isDigit = true := by
  simp only [parseOctet] at h
  split_ifs at h with hc hv
  exact hc.2.1

/-- A successfully parsed dotted quad has a successfully parsed octet in every
segment of its dot-split. -/
lemma parseIPv4_parts {l : List Char} {v : Nat} (h : parseIPv4 l = some v) :
    ∀ p ∈ splitOnChar '.' l, ∃ w, parseOctet p = some w := by
  unfold parseIPv4 at h
  rcases hs : splitOnChar '.' l with _ | ⟨a, _ | ⟨b, _ | ⟨c, _ | ⟨d, _ | ⟨e, rest⟩⟩⟩⟩⟩ <;>
    rw [hs] at h <;>
    try exact Option.noConfusion h
  intro p hp
  simp only [Option.bind_eq_some, Option.map_eq_some'] at h
  rcases h with ⟨wa, ha, wb, hb, wc, hc, wd, hd, _⟩
  simp only [List.mem_cons, List.not_mem_nil, or_false] at hp
  rcases hp with rfl | rfl | rfl | rfl
  · exact ⟨wa, ha⟩
  · exact ⟨wb, hb⟩
  · exact ⟨wc, hc⟩
  · exact ⟨wd, hd⟩

/-- A string that parses as a dotted-quad address contains no slash. -/
lemma no_slash_of_parseIPv4 {l : List Char} {v : Nat} (h : parseIPv4 l = some v) :
    '/' ∉ l := by
  intro hm
  rcases exists_part_of_mem_splitOnChar '.' '/' (by decide) l hm with ⟨p, hp, hxp⟩
  rcases parseIPv4_parts h p hp with ⟨w, hw⟩
  have hd := parseOctet_digits hw
  have hdig : ('/' : Char).isDigit = true := List.all_eq_true.mp hd '/' hxp
  exact absurd hdig (by decide)

/-- Reduction of the network parser once the slash-split shape is known. -/
lemma parseIPv4Network_two_parts (s : String) (addr pre : List Char)
    (hs : splitOnChar '/' s.data = [addr, pre]) :
    parseIPv4Network s =
      match parseIPv4 addr, parsePrefixLen pre with
      | some v, some p_ => some (v - v % 2 ^ (32 - p_), p_)
      | _, _ => none := by
  unfold parseIPv4Network
  rw [hs]

/-- Appending the literal "/24" to a valid dotted quad parses as that address
masked to its /24 network. -/
lemma parseIPv4Network_append24 {ip : String} {v : Nat}
    (h : parseIPv4 ip.data = some v) :
    parseIPv4Network (ip ++ "/24") = some (v - v % 256, 24) := by
  have hns : '/' ∉ ip.data := no_slash_of_parseIPv4 h
  have hdata : (ip ++ "/24").data = ip.data ++ '/' :: ('2' :: '4' :: []) := by
    cases ip
    rfl
  have hsplit : splitOnChar '/' ((ip ++ "/24").data) = [ip.data, '2' :: '4' :: []] := by
    rw [hdata, splitOnChar_append_cons '/' ip.data ('2' :: '4' :: []) hns]
    rfl
  rw [parseIPv4Network_two_parts (ip ++ "/24") ip.data ('2' :: '4' :: []) hsplit, h]
  rfl

/-- C7 counterexample: on connection failure the function returns the string
"127.0.0.0/24" — the normalized /24 network — not the literal fallback value
"127.0.0.1/24" the claim names. -/
theorem local_subnet_fallback_counterexample :
    get_local_subnet none = Except.ok "127.0.0.0/24" ∧
    "127.0.0.0/24" ≠ "127.0.0.1/24" :=
  ⟨rfl, by decide⟩

/-- C7 amended: `get_local_subnet` raises nothing in any environment where the
socket layer yields a well-formed dotted-quad local address (as `getsockname`
does), returning a usable CIDR; and on any failure to reach the network the
returned value is "127.0.0.0/24", the /24 network derived from the fallback
address 127.0.0.1. -/
theorem get_local_subnet_amended :
    get_local_subnet none = Except.ok "127.0.0.0/24" ∧
    ∀ (ip : String) (v : Nat), parseIPv4 ip.data = some v →
      get_local_subnet (some ip) = Except.ok (ipv4NetworkStr (v - v % 256) 24) := by
  refine ⟨rfl, fun ip v h => ?_⟩
  simp only [get_local_subnet, parseIPv4Network_append24 h]

/-- C7 amended witness: a concrete detected address produces its /24 network. -/
theorem get_local_subnet_amended_witness :
    get_local_subnet none = Except.ok "127.0.0.0/24" ∧
    get_local_subnet (some "10.20.30.40")
      = Except.ok (ipv4NetworkStr (169090600 - 169090600 % 256) 24) :=
  ⟨get_local_subnet_amended.1,
   get_local_subnet_amended.2 "10.20.30.40" 169090600 (by decide)⟩

end DeviceRadar
